import Mathlib

/-!
Shallow embedding of the pair-potential force engine of `PotentialPair.h`
(template class `PotentialPair<evaluator>`): the per-type-pair parameter
tables and their setters, the energy-shift policy (no_shift / shift /
xplor), the minimum-image convention, and the per-particle /
per-neighbor force, energy and virial accumulation loop of
`computeForces`.  `Scalar` is embedded as ℚ (exact arithmetic standing
for the real-number semantics of the C++ `Scalar` type).
-/

namespace PotentialPair

abbrev Scalar := ℚ

/-- The three energy shifting modes of `PotentialPair::energyShiftMode`. -/
inductive ShiftMode
  | no_shift
  | shift
  | xplor
deriving DecidableEq, Repr

/-- The two storage modes of the neighbor list (`NeighborList::half` /
`NeighborList::full`). -/
inductive StorageMode
  | half
  | full
deriving DecidableEq, Repr

/-- The simulation box: periodic extents per axis (`BoxDim`). -/
structure BoxDim where
  xlo : Scalar
  xhi : Scalar
  ylo : Scalar
  yhi : Scalar
  zlo : Scalar
  zhi : Scalar
deriving Repr

/-- One particle of the particle-data arrays: position, type index,
diameter and charge (`arrays.x/y/z/type/diameter/charge`). -/
structure Particle where
  x : Scalar
  y : Scalar
  z : Scalar
  ptype : Nat
  diameter : Scalar
  charge : Scalar
deriving Repr

/-- The evaluator template parameter: the two static capability flags
`needsDiameter()` / `needsCharge()` and `evalForceAndEnergy`.  The
`eval` field takes `rsq`, `rcutsq`, the opaque parameters, the pair of
values handed over by `setDiameter`, the pair of values handed over by
`setCharge`, and the `energy_shift` flag, and returns
`(force_divr, pair_eng)`. -/
structure Evaluator (P : Type) where
  name : String
  needsDiameter : Bool
  needsCharge : Bool
  eval : Scalar → Scalar → P → Scalar × Scalar → Scalar × Scalar → Bool → Scalar × Scalar

/-- Modelled from the spec: `Index2DUpperTriangular` (from `Index1D.h`,
which is not among the sources; only its use sites in `PotentialPair.h`
are) maps an unordered pair of type indices to a canonical
upper-triangular slot, "so (a,b) and (b,a) map to the same slot". -/
def typpairIdx (w i j : Nat) : Nat :=
  let a := min i j
  let b := max i j
  a * w + b - a * (a + 1) / 2

/-- The per-type-pair state of a `PotentialPair`: the number of particle
types, the parameter table `m_params`, the squared-cutoff table
`m_rcutsq`, the squared-onset table `m_ronsq` (each indexed by the
canonical slot), and the shift mode `m_shift_mode`. -/
structure PairPotState (P : Type) where
  ntypes : Nat
  params : Nat → P
  rcutsq : Nat → Scalar
  ronsq : Nat → Scalar
  shift_mode : ShiftMode

/-- Pointwise update of a table at one slot. -/
def upd {α : Type} (f : Nat → α) (k : Nat) (v : α) : Nat → α :=
  fun n => if n = k then v else f n

/-- `PotentialPair::setParams`: validity check, then store the parameter
at the canonical slot for the type pair. -/
def setParams {P : Type} (s : PairPotState P) (typ1 typ2 : Nat) (param : P) :
    Except String (PairPotState P) :=
  if typ1 ≥ s.ntypes ∨ typ2 ≥ s.ntypes then
    Except.error "Error setting parameters in PotentialPair"
  else
    Except.ok { s with params := upd s.params (typpairIdx s.ntypes typ1 typ2) param }

/-- `PotentialPair::setRcut`: validity check, then store `rcut * rcut`. -/
def setRcut {P : Type} (s : PairPotState P) (typ1 typ2 : Nat) (rcut : Scalar) :
    Except String (PairPotState P) :=
  if typ1 ≥ s.ntypes ∨ typ2 ≥ s.ntypes then
    Except.error "Error setting parameters in PotentialPair"
  else
    Except.ok { s with rcutsq := upd s.rcutsq (typpairIdx s.ntypes typ1 typ2) (rcut * rcut) }

/-- `PotentialPair::setRon`: validity check, then store `ron * ron`. -/
def setRon {P : Type} (s : PairPotState P) (typ1 typ2 : Nat) (ron : Scalar) :
    Except String (PairPotState P) :=
  if typ1 ≥ s.ntypes ∨ typ2 ≥ s.ntypes then
    Except.error "Error setting parameters in PotentialPair"
  else
    Except.ok { s with ronsq := upd s.ronsq (typpairIdx s.ntypes typ1 typ2) (ron * ron) }

/-- Table read at the canonical slot, as done at the top of the neighbor
loop of `computeForces` (`h_params.data[m_typpair_idx(typei, typej)]`). -/
def getParam {P : Type} (s : PairPotState P) (typ1 typ2 : Nat) : P :=
  s.params (typpairIdx s.ntypes typ1 typ2)

/-- Squared-cutoff read at the canonical slot. -/
def getRcutsq {P : Type} (s : PairPotState P) (typ1 typ2 : Nat) : Scalar :=
  s.rcutsq (typpairIdx s.ntypes typ1 typ2)

/-- Squared-onset read at the canonical slot. -/
def getRonsq {P : Type} (s : PairPotState P) (typ1 typ2 : Nat) : Scalar :=
  s.ronsq (typpairIdx s.ntypes typ1 typ2)

/-- Periodic imaging of one axis offset, as in `computeForces`:
`if (dx >= box.xhi) dx -= Lx; else if (dx < box.xlo) dx += Lx;`. -/
def minImage (lo hi L d : Scalar) : Scalar :=
  if d ≥ hi then d - L
  else if d < lo then d + L
  else d

/-- The minimum-image separation vector `dx, dy, dz` between two
particles, raw offset `position(i) - position(j)` corrected per axis. -/
def pairDelta (box : BoxDim) (p q : Particle) : Scalar × Scalar × Scalar :=
  (minImage box.xlo box.xhi (box.xhi - box.xlo) (p.x - q.x),
   minImage box.ylo box.yhi (box.yhi - box.ylo) (p.y - q.y),
   minImage box.zlo box.zhi (box.zhi - box.zlo) (p.z - q.z))

/-- `rsq = dx*dx + dy*dy + dz*dz` on the minimum-image offsets. -/
def pairRsq (box : BoxDim) (p q : Particle) : Scalar :=
  let d := pairDelta box p q
  d.1 * d.1 + d.2.1 * d.2.1 + d.2.2 * d.2.2

/-- The `(di, dj)` values handed to `eval.setDiameter`: the particles'
diameters when `needsDiameter()`, else the zero-initialized locals. -/
def suppliedDiameters {P : Type} (E : Evaluator P) (p q : Particle) : Scalar × Scalar :=
  if E.needsDiameter then (p.diameter, q.diameter) else (0, 0)

/-- The values handed to `eval.setCharge` when `needsCharge()`: the
source (line `eval.setCharge(di, dj);`) passes the locals `di, dj`,
which hold the particles' diameters when `needsDiameter()` and zero
otherwise; the fetched charges `qi, qj` are not passed. -/
def suppliedCharges {P : Type} (E : Evaluator P) (p q : Particle) : Scalar × Scalar :=
  if E.needsCharge then suppliedDiameters E p q else (0, 0)

/-- The `energy_shift` flag handed to `evalForceAndEnergy`: true in
`shift` mode, and in `xplor` mode exactly when `ronsq > rcutsq`. -/
def energyShiftFlag (mode : ShiftMode) (rcutsq ronsq : Scalar) : Bool :=
  match mode with
  | ShiftMode.no_shift => false
  | ShiftMode.shift => true
  | ShiftMode.xplor => if ronsq > rcutsq then true else false

/-- The XPLOR smoothing window applied to `(force_divr, pair_eng)`
inside `computeForces` when the smoothing branch is taken. -/
def xplorSmooth (rsq rcutsq ronsq force_divr pair_eng : Scalar) : Scalar × Scalar :=
  let xplor_denom_inv : Scalar :=
    1 / ((rcutsq - ronsq) * (rcutsq - ronsq) * (rcutsq - ronsq))
  let rsq_minus_r_cut_sq := rsq - rcutsq
  let s := rsq_minus_r_cut_sq * rsq_minus_r_cut_sq *
    (rcutsq + 2 * rsq - 3 * ronsq) * xplor_denom_inv
  let ds_dr_divr := 12 * (rsq - ronsq) * rsq_minus_r_cut_sq * xplor_denom_inv
  (s * force_divr - ds_dr_divr * pair_eng, pair_eng * s)

/-- The shifting-policy step of the neighbor loop: in `xplor` mode, when
`rsq >= ronsq`, replace the raw evaluator output by the smoothed one;
otherwise it is used unmodified. -/
def applyShiftPolicy (mode : ShiftMode) (rsq rcutsq ronsq force_divr pair_eng : Scalar) :
    Scalar × Scalar :=
  if mode = ShiftMode.xplor ∧ rsq ≥ ronsq then
    xplorSmooth rsq rcutsq ronsq force_divr pair_eng
  else
    (force_divr, pair_eng)

/-- The evaluator invocation plus shifting policy for one pair: table
lookups for the type pair, the `energy_shift` flag, `evalForceAndEnergy`
with the diameter/charge values actually supplied by the source, then
the xplor modification.  Returns the final `(force_divr, pair_eng)`. -/
def pairFE {P : Type} (s : PairPotState P) (E : Evaluator P) (p q : Particle)
    (rsq : Scalar) : Scalar × Scalar :=
  let idx := typpairIdx s.ntypes p.ptype q.ptype
  let param := s.params idx
  let rcutsq := s.rcutsq idx
  let ronsq := if s.shift_mode = ShiftMode.xplor then s.ronsq idx else 0
  let energy_shift := energyShiftFlag s.shift_mode rcutsq (s.ronsq idx)
  let fe := E.eval rsq rcutsq param (suppliedDiameters E p q) (suppliedCharges E p q)
    energy_shift
  applyShiftPolicy s.shift_mode rsq rcutsq ronsq fe.1 fe.2

/-- The per-particle force/energy/virial output arrays
(`m_fx, m_fy, m_fz, m_pe, m_virial`). -/
structure ForceArrays where
  fx : Nat → Scalar
  fy : Nat → Scalar
  fz : Nat → Scalar
  pe : Nat → Scalar
  virial : Nat → Scalar

/-- The local accumulators `fxi, fyi, fzi, pei, viriali` of one outer
iteration of `computeForces`. -/
structure Locals where
  fxi : Scalar
  fyi : Scalar
  fzi : Scalar
  pei : Scalar
  viriali : Scalar
deriving Repr

/-- `getStorageMode() == NeighborList::half`, computed once as the
`third_law` flag of `computeForces`. -/
def StorageMode.isHalf : StorageMode → Bool
  | StorageMode.half => true
  | StorageMode.full => false

/-- All output arrays zeroed, as by the `memset` calls at the start of
`computeForces`. -/
def zeroArrays : ForceArrays :=
  { fx := fun _ => 0, fy := fun _ => 0, fz := fun _ => 0,
    pe := fun _ => 0, virial := fun _ => 0 }

/-- The body of the inner neighbor loop of `computeForces` for neighbor
`j` of particle `i`: minimum-image separation, cutoff test, evaluator
plus shifting policy, accumulation into the locals of `i`, and — when
`third_law` holds (half storage mode) — the cross-credit into particle
`j`'s arrays. -/
def visitNeighbor {P : Type} (s : PairPotState P) (E : Evaluator P) (box : BoxDim)
    (part : Nat → Particle) (third_law : Bool) (i j : Nat)
    (loc : Locals) (A : ForceArrays) : Locals × ForceArrays :=
  let p := part i
  let q := part j
  let d := pairDelta box p q
  let rsq := pairRsq box p q
  let idx := typpairIdx s.ntypes p.ptype q.ptype
  if rsq < s.rcutsq idx then
    let fe := pairFE s E p q rsq
    let pair_virial := (1 / 6 : Scalar) * rsq * fe.1
    let loc' : Locals :=
      { fxi := loc.fxi + d.1 * fe.1,
        fyi := loc.fyi + d.2.1 * fe.1,
        fzi := loc.fzi + d.2.2 * fe.1,
        pei := loc.pei + fe.2 * (1 / 2),
        viriali := loc.viriali + pair_virial }
    let A' : ForceArrays :=
      if third_law then
        { fx := upd A.fx j (A.fx j - d.1 * fe.1),
          fy := upd A.fy j (A.fy j - d.2.1 * fe.1),
          fz := upd A.fz j (A.fz j - d.2.2 * fe.1),
          pe := upd A.pe j (A.pe j + fe.2 * (1 / 2)),
          virial := upd A.virial j (A.virial j + pair_virial) }
      else A
    (loc', A')
  else
    (loc, A)

/-- One outer iteration of `computeForces` for particle `i`: fold the
neighbor loop over `i`'s neighbor list starting from zero locals, then
add the locals into `i`'s slots of the output arrays. -/
def particleLoop {P : Type} (s : PairPotState P) (E : Evaluator P) (box : BoxDim)
    (part : Nat → Particle) (third_law : Bool) (i : Nat) (nbrs : List Nat)
    (A : ForceArrays) : ForceArrays :=
  let r := nbrs.foldl
    (fun (st : Locals × ForceArrays) j => visitNeighbor s E box part third_law i j st.1 st.2)
    (⟨0, 0, 0, 0, 0⟩, A)
  let loc := r.1
  let A1 := r.2
  { fx := upd A1.fx i (A1.fx i + loc.fxi),
    fy := upd A1.fy i (A1.fy i + loc.fyi),
    fz := upd A1.fz i (A1.fz i + loc.fzi),
    pe := upd A1.pe i (A1.pe i + loc.pei),
    virial := upd A1.virial i (A1.virial i + loc.viriali) }

/-- `PotentialPair::computeForces`: zero the output arrays, derive
`third_law` from the neighbor list's storage mode, then run the outer
loop over all particles. -/
def computeForces {P : Type} (s : PairPotState P) (E : Evaluator P) (box : BoxDim)
    (part : Nat → Particle) (nparticles : Nat) (nlist : Nat → List Nat)
    (mode : StorageMode) : ForceArrays :=
  let third_law := StorageMode.isHalf mode
  (List.range nparticles).foldl
    (fun A i => particleLoop s E box part third_law i (nlist i) A)
    zeroArrays

/-- The cached log name `m_log_name`:
`"pair_" + evaluator::getName() + "_energy"`. -/
def logName (evalName : String) : String := "pair_" ++ evalName ++ "_energy"

/-- Modelled from the spec: `ForceCompute::calcEnergySum` (from
`ForceCompute.h`, which is not among the sources) returns "the sum of
all particles' potential-energy accumulators". -/
def calcEnergySum (pe : Nat → Scalar) (nparticles : Nat) : Scalar :=
  ((List.range nparticles).map pe).sum

/-- `PotentialPair::getLogValue`: on the provided log name, compute the
forces for the timestep and return the energy sum; on any other
quantity, fail with the invalid-quantity error. -/
def getLogValue {P : Type} (s : PairPotState P) (E : Evaluator P) (box : BoxDim)
    (part : Nat → Particle) (nparticles : Nat) (nlist : Nat → List Nat)
    (mode : StorageMode) (quantity : String) : Except String Scalar :=
  if quantity = logName E.name then
    Except.ok (calcEnergySum (computeForces s E box part nparticles nlist mode).pe nparticles)
  else
    Except.error (quantity ++ " is not a valid log quantity for PotentialPair")

/-- Membership of a particle's position in the box extents. -/
def inBox (box : BoxDim) (p : Particle) : Prop :=
  box.xlo ≤ p.x ∧ p.x ≤ box.xhi ∧ box.ylo ≤ p.y ∧ p.y ≤ box.yhi ∧
    box.zlo ≤ p.z ∧ p.z ≤ box.zhi

instance (box : BoxDim) (p : Particle) : Decidable (inBox box p) := by
  unfold inBox
  infer_instance

/-- A trivial evaluator with no optional inputs, for concrete instances. -/
def unitEval : Evaluator Unit :=
  { name := "unit", needsDiameter := false, needsCharge := false,
    eval := fun _ _ _ _ _ _ => (1, 1) }

/-- A charge-needing evaluator whose energy output is the first value it
was handed through `setCharge`, used to probe what the engine supplies. -/
def chargeProbeEval : Evaluator Unit :=
  { name := "probe", needsDiameter := true, needsCharge := true,
    eval := fun _ _ _ _ qpair _ => (0, qpair.1) }

/-- The trivial law of the spec's scenario: `(force_divr, pair_eng) =
(2.0, -1.0)` for any in-range input. -/
def scenarioEval : Evaluator Unit :=
  { name := "scenario", needsDiameter := false, needsCharge := false,
    eval := fun _ _ _ _ _ _ => (2, -1) }

/-- A one-type state with `rcutsq = 4` everywhere and no shifting. -/
def stateNoShift : PairPotState Unit :=
  { ntypes := 1, params := fun _ => (), rcutsq := fun _ => 4,
    ronsq := fun _ => 0, shift_mode := ShiftMode.no_shift }

/-- A three-type state over `Nat` parameters, for configuration tests. -/
def natState : PairPotState Nat :=
  { ntypes := 3, params := fun _ => 0, rcutsq := fun _ => 0,
    ronsq := fun _ => 0, shift_mode := ShiftMode.no_shift }

/-- A centered cubic box with half-extent 10. -/
def box10 : BoxDim :=
  { xlo := -10, xhi := 10, ylo := -10, yhi := 10, zlo := -10, zhi := 10 }

/-- Two particles 3 apart on the x axis (outside a cutoff of 2). -/
def pFar : Nat → Particle :=
  fun n => if n = 0 then ⟨0, 0, 0, 0, 0, 0⟩ else ⟨3, 0, 0, 0, 0, 0⟩

/-- Two particles 1 apart on the x axis (the spec's scenario geometry). -/
def pNear : Nat → Particle :=
  fun n => if n = 0 then ⟨1, 0, 0, 0, 0, 0⟩ else ⟨0, 0, 0, 0, 0, 0⟩

/-- A particle with diameter 1 and charge 3 for the charge probe. -/
def pChg0 : Particle := { x := 0, y := 0, z := 0, ptype := 0, diameter := 1, charge := 3 }

/-- A particle with diameter 2 and charge 4 for the charge probe. -/
def pChg1 : Particle := { x := 1, y := 0, z := 0, ptype := 0, diameter := 2, charge := 4 }

/-- A half-mode neighbor list presenting the unordered pair {0, 1} once. -/
def nlistHalf : Nat → List Nat :=
  fun n => if n = 0 then [1] else []

/-- A full-mode neighbor list presenting both ordered pairs (0,1), (1,0). -/
def nlistFull : Nat → List Nat :=
  fun n => if n = 0 then [1] else if n = 1 then [0] else []

/-! Helper lemmas. -/

theorem upd_self {α : Type} (f : Nat → α) (k : Nat) (v : α) : upd f k v k = v := by
  simp [upd]

theorem upd_other {α : Type} (f : Nat → α) (k n : Nat) (v : α) (h : n ≠ k) :
    upd f k v n = f n := by
  simp [upd, h]

theorem typpairIdx_comm (w i j : Nat) : typpairIdx w i j = typpairIdx w j i := by
  unfold typpairIdx
  rw [min_comm, max_comm]

/-- C1: In xplor shift mode, for a type pair whose shift flag
(`onset² > cutoff²`) is not set and a separation with
`onset² ≤ rsq < cutoff²`, the shifting policy replaces the raw evaluator
output `(F, E)` by exactly `smoothed_energy = s·E` and
`smoothed_force_over_r = s·F − ds_dr_over_r·E` with
`s = (rsq − cutoff²)²·(cutoff² + 2·rsq − 3·onset²)/(cutoff² − onset²)³`
and `ds_dr_over_r = 12·(rsq − onset²)·(rsq − cutoff²)/(cutoff² − onset²)³`;
for `rsq < onset²` the raw output is used unmodified (and the evaluator
is called unshifted, since the flag is unset); the smoothed energy
equals the raw energy at `rsq = onset²` and equals zero at
`rsq = cutoff²`. -/
theorem c1_xplor_smoothing_window (rsq rcutsq ronsq F E : Scalar)
    (hflag : ¬ ronsq > rcutsq) (hon : ronsq ≤ rsq) (hcut : rsq < rcutsq) :
    applyShiftPolicy ShiftMode.xplor rsq rcutsq ronsq F E =
      ((rsq - rcutsq) * (rsq - rcutsq) * (rcutsq + 2 * rsq - 3 * ronsq)
          / ((rcutsq - ronsq) * (rcutsq - ronsq) * (rcutsq - ronsq)) * F
        - 12 * (rsq - ronsq) * (rsq - rcutsq)
          / ((rcutsq - ronsq) * (rcutsq - ronsq) * (rcutsq - ronsq)) * E,
       (rsq - rcutsq) * (rsq - rcutsq) * (rcutsq + 2 * rsq - 3 * ronsq)
          / ((rcutsq - ronsq) * (rcutsq - ronsq) * (rcutsq - ronsq)) * E) ∧
    (∀ r, r < ronsq → applyShiftPolicy ShiftMode.xplor r rcutsq ronsq F E = (F, E)) ∧
    energyShiftFlag ShiftMode.xplor rcutsq ronsq = false ∧
    (applyShiftPolicy ShiftMode.xplor ronsq rcutsq ronsq F E).2 = E ∧
    (xplorSmooth rcutsq rcutsq ronsq F E).2 = 0 := by
  have hlt : ronsq < rcutsq := lt_of_le_of_lt hon hcut
  have hne : rcutsq - ronsq ≠ 0 := sub_ne_zero.mpr (ne_of_gt hlt)
  refine ⟨?_, ?_, ?_, ?_, ?_⟩
  · unfold applyShiftPolicy
    rw [if_pos ⟨rfl, hon⟩]
    unfold xplorSmooth
    simp only [Prod.mk.injEq]
    constructor <;> ring
  · intro r hr
    unfold applyShiftPolicy
    rw [if_neg]
    rintro ⟨-, hge⟩
    exact absurd hr (not_lt.mpr hge)
  · unfold energyShiftFlag
    rw [if_neg hflag]
  · unfold applyShiftPolicy
    rw [if_pos ⟨rfl, le_refl ronsq⟩]
    have hD : (rcutsq - ronsq) * (rcutsq - ronsq) * (rcutsq - ronsq) ≠ 0 :=
      mul_ne_zero (mul_ne_zero hne hne) hne
    simp only [xplorSmooth]
    rw [(by ring : (ronsq - rcutsq) * (ronsq - rcutsq) * (rcutsq + 2 * ronsq - 3 * ronsq)
      = (rcutsq - ronsq) * (rcutsq - ronsq) * (rcutsq - ronsq))]
    rw [one_div, mul_inv_cancel₀ hD, mul_one]
  · unfold xplorSmooth
    simp only
    ring

/-- C1 witness: the smoothing window at `rsq = 2`, `cutoff² = 4`,
`onset² = 1`, raw output `(5, 7)`. -/
theorem c1_witness :
    ¬ (1 : Scalar) > 4 ∧ (1 : Scalar) ≤ 2 ∧ (2 : Scalar) < 4 ∧
    applyShiftPolicy ShiftMode.xplor 2 4 1 5 7 =
      ((2 - 4) * (2 - 4) * (4 + 2 * 2 - 3 * 1) / ((4 - 1) * (4 - 1) * (4 - 1)) * 5
        - 12 * (2 - 1) * (2 - 4) / ((4 - 1) * (4 - 1) * (4 - 1)) * 7,
       (2 - 4) * (2 - 4) * (4 + 2 * 2 - 3 * 1) / ((4 - 1) * (4 - 1) * (4 - 1)) * 7) :=
  ⟨by norm_num, by norm_num, by norm_num,
    (c1_xplor_smoothing_window 2 4 1 5 7 (by norm_num) (by norm_num) (by norm_num)).1⟩

/-- C10: the smoothing division is reached only on the branch where
`onset² ≤ rsq` and `rsq < cutoff²` both hold, which forces
`onset² < cutoff²` and hence a strictly positive denominator
`(cutoff² − onset²)³`; and whenever `onset² ≥ cutoff²` the xplor
smoothing branch is not taken for any separation within the cutoff, so
`xplorSmooth` (the only site of the division) is never invoked. -/
theorem c10_xplor_denominator_positive (rsq rcutsq ronsq : Scalar)
    (hon : ronsq ≤ rsq) (hcut : rsq < rcutsq) :
    0 < (rcutsq - ronsq) * (rcutsq - ronsq) * (rcutsq - ronsq) ∧
    (∀ ron2 r F E : Scalar, rcutsq ≤ ron2 → r < rcutsq →
      applyShiftPolicy ShiftMode.xplor r rcutsq ron2 F E = (F, E)) := by
  have hlt : ronsq < rcutsq := lt_of_le_of_lt hon hcut
  have hpos : 0 < rcutsq - ronsq := sub_pos.mpr hlt
  constructor
  · exact mul_pos (mul_pos hpos hpos) hpos
  · intro ron2 r F E h1 h2
    unfold applyShiftPolicy
    rw [if_neg]
    rintro ⟨-, hge⟩
    exact absurd hge (not_le.mpr (lt_of_lt_of_le h2 h1))

/-- C10 witness: `onset² = 1 ≤ rsq = 2 < cutoff² = 4` gives a positive
denominator, and with `onset² = 4 ≥ cutoff² = 4` the branch is skipped. -/
theorem c10_witness :
    (1 : Scalar) ≤ 2 ∧ (2 : Scalar) < 4 ∧
    0 < ((4 : Scalar) - 1) * (4 - 1) * (4 - 1) ∧
    applyShiftPolicy ShiftMode.xplor 2 4 4 5 7 = (5, 7) :=
  ⟨by norm_num, by norm_num,
    (c10_xplor_denominator_positive 2 4 1 (by norm_num) (by norm_num)).1,
    (c10_xplor_denominator_positive 2 4 1 (by norm_num) (by norm_num)).2 4 2 5 7
      (by norm_num) (by norm_num)⟩

/-- C5: a neighbor-loop visit whose squared separation satisfies
`rsq ≥ cutoff²` for its type pair (including equality) contributes
nothing: the locals of particle i and the output arrays (hence particle
j's force, energy and virial slots) are returned exactly as they were. -/
theorem c5_cutoff_skip {P : Type} (s : PairPotState P) (E : Evaluator P) (box : BoxDim)
    (part : Nat → Particle) (third_law : Bool) (i j : Nat) (loc : Locals) (A : ForceArrays)
    (h : s.rcutsq (typpairIdx s.ntypes (part i).ptype (part j).ptype)
      ≤ pairRsq box (part i) (part j)) :
    visitNeighbor s E box part third_law i j loc A = (loc, A) := by
  simp only [visitNeighbor]
  rw [if_neg (not_lt.mpr h)]

/-- C5 witness: particles 3 apart with `cutoff² = 4` (`rsq = 9 ≥ 4`)
leave locals and arrays untouched. -/
theorem c5_witness :
    stateNoShift.rcutsq (typpairIdx stateNoShift.ntypes (pFar 0).ptype (pFar 1).ptype)
      ≤ pairRsq box10 (pFar 0) (pFar 1) ∧
    visitNeighbor stateNoShift unitEval box10 pFar true 0 1 ⟨0, 0, 0, 0, 0⟩ zeroArrays
      = (⟨0, 0, 0, 0, 0⟩, zeroArrays) :=
  ⟨by norm_num [stateNoShift, pairRsq, pairDelta, minImage, box10, pFar, typpairIdx],
    c5_cutoff_skip stateNoShift unitEval box10 pFar true 0 1 ⟨0, 0, 0, 0, 0⟩ zeroArrays
      (by norm_num [stateNoShift, pairRsq, pairDelta, minImage, box10, pFar, typpairIdx])⟩

/-- C7: for valid type indices, `setParams (a, b)` stores at the same
canonical slot as `setParams (b, a)` would, so a lookup for `(b, a)`
returns the stored value; the cutoff table stores `rcut·rcut` and the
onset table stores `ron·ron`, with the same symmetry. -/
theorem c7_type_pair_symmetry {P : Type} (s : PairPotState P) (a b : Nat) (v : P)
    (rc ron : Scalar) (ha : a < s.ntypes) (hb : b < s.ntypes) :
    (∃ s1, setParams s a b v = Except.ok s1 ∧ getParam s1 b a = v) ∧
    (∃ s2, setRcut s a b rc = Except.ok s2 ∧ getRcutsq s2 b a = rc * rc) ∧
    (∃ s3, setRon s a b ron = Except.ok s3 ∧ getRonsq s3 b a = ron * ron) := by
  have hcond : ¬ (a ≥ s.ntypes ∨ b ≥ s.ntypes) := by
    rw [not_or, not_le, not_le]
    exact ⟨ha, hb⟩
  have e1 : setParams s a b v
      = Except.ok { s with params := upd s.params (typpairIdx s.ntypes a b) v } := by
    unfold setParams
    rw [if_neg hcond]
  have e2 : setRcut s a b rc
      = Except.ok { s with rcutsq := upd s.rcutsq (typpairIdx s.ntypes a b) (rc * rc) } := by
    unfold setRcut
    rw [if_neg hcond]
  have e3 : setRon s a b ron
      = Except.ok { s with ronsq := upd s.ronsq (typpairIdx s.ntypes a b) (ron * ron) } := by
    unfold setRon
    rw [if_neg hcond]
  refine ⟨⟨_, e1, ?_⟩, ⟨_, e2, ?_⟩, ⟨_, e3, ?_⟩⟩
  · show upd s.params (typpairIdx s.ntypes a b) v (typpairIdx s.ntypes b a) = v
    rw [typpairIdx_comm s.ntypes b a, upd_self]
  · show upd s.rcutsq (typpairIdx s.ntypes a b) (rc * rc) (typpairIdx s.ntypes b a) = rc * rc
    rw [typpairIdx_comm s.ntypes b a, upd_self]
  · show upd s.ronsq (typpairIdx s.ntypes a b) (ron * ron) (typpairIdx s.ntypes b a) = ron * ron
    rw [typpairIdx_comm s.ntypes b a, upd_self]

/-- C7 witness: in a 3-type state, setting pair (0, 1) and reading
pair (1, 0) round-trips the parameter, `rcut² = 25` and `ron² = 49`. -/
theorem c7_witness :
    (0 : Nat) < natState.ntypes ∧ (1 : Nat) < natState.ntypes ∧
    (∃ s1, setParams natState 0 1 42 = Except.ok s1 ∧ getParam s1 1 0 = 42) ∧
    (∃ s2, setRcut natState 0 1 5 = Except.ok s2 ∧ getRcutsq s2 1 0 = 5 * 5) ∧
    (∃ s3, setRon natState 0 1 7 = Except.ok s3 ∧ getRonsq s3 1 0 = 7 * 7) := by
  refine ⟨by decide, by decide, ?_⟩
  exact (fun h => ⟨h.1, h.2.1, h.2.2⟩)
    (c7_type_pair_symmetry natState 0 1 42 5 7 (by decide) (by decide))

/-- C8: any configuration call with a type index `≥ ntypes` fails with
the invalid-type error, mutating nothing (the error result carries the
tables unchanged by construction, matching the source's throw before any
write); calls with valid indices succeed. -/
theorem c8_invalid_type_error {P : Type} (s : PairPotState P) (a b : Nat) (v : P)
    (rc ron : Scalar) (hbad : a ≥ s.ntypes ∨ b ≥ s.ntypes) :
    setParams s a b v = Except.error "Error setting parameters in PotentialPair" ∧
    setRcut s a b rc = Except.error "Error setting parameters in PotentialPair" ∧
    setRon s a b ron = Except.error "Error setting parameters in PotentialPair" ∧
    (∀ a1 b1, a1 < s.ntypes → b1 < s.ntypes →
      (∃ s1, setParams s a1 b1 v = Except.ok s1) ∧
      (∃ s2, setRcut s a1 b1 rc = Except.ok s2) ∧
      (∃ s3, setRon s a1 b1 ron = Except.ok s3)) := by
  have hcond : ∀ a1 b1 : Nat, a1 < s.ntypes → b1 < s.ntypes →
      ¬ (a1 ≥ s.ntypes ∨ b1 ≥ s.ntypes) := by
    intro a1 b1 h1 h2
    rw [not_or, not_le, not_le]
    exact ⟨h1, h2⟩
  refine ⟨?_, ?_, ?_, ?_⟩
  · unfold setParams
    rw [if_pos hbad]
  · unfold setRcut
    rw [if_pos hbad]
  · unfold setRon
    rw [if_pos hbad]
  · intro a1 b1 h1 h2
    refine ⟨⟨{ s with params := upd s.params (typpairIdx s.ntypes a1 b1) v }, ?_⟩,
      ⟨{ s with rcutsq := upd s.rcutsq (typpairIdx s.ntypes a1 b1) (rc * rc) }, ?_⟩,
      ⟨{ s with ronsq := upd s.ronsq (typpairIdx s.ntypes a1 b1) (ron * ron) }, ?_⟩⟩
    · unfold setParams
      rw [if_neg (hcond a1 b1 h1 h2)]
    · unfold setRcut
      rw [if_neg (hcond a1 b1 h1 h2)]
    · unfold setRon
      rw [if_neg (hcond a1 b1 h1 h2)]

/-- C8 witness: the spec's scenario — type index 5 with only 3 types
configured — fails on all three setters, while (0, 1) succeeds. -/
theorem c8_witness :
    ((5 : Nat) ≥ natState.ntypes ∨ (0 : Nat) ≥ natState.ntypes) ∧
    setRcut natState 5 0 2 = Except.error "Error setting parameters in PotentialPair" ∧
    (∃ s2, setRcut natState 0 1 2 = Except.ok s2) :=
  ⟨by decide,
    (c8_invalid_type_error natState 5 0 9 2 3 (by decide)).2.1,
    ((c8_invalid_type_error natState 5 0 9 2 3 (by decide)).2.2.2 0 1
      (by decide) (by decide)).2.1⟩

/-- C9: `getLogValue` on the single provided quantity name
`"pair_<name>_energy"` returns the sum over all particles of the
potential-energy accumulators of the computation, and on every other
quantity string it fails with the invalid-quantity error. -/
theorem c9_log_value {P : Type} (s : PairPotState P) (E : Evaluator P) (box : BoxDim)
    (part : Nat → Particle) (n : Nat) (nlist : Nat → List Nat) (mode : StorageMode) :
    logName E.name = "pair_" ++ E.name ++ "_energy" ∧
    getLogValue s E box part n nlist mode (logName E.name)
      = Except.ok (calcEnergySum (computeForces s E box part n nlist mode).pe n) ∧
    (∀ q : String, q ≠ logName E.name →
      getLogValue s E box part n nlist mode q
        = Except.error (q ++ " is not a valid log quantity for PotentialPair")) := by
  refine ⟨rfl, ?_, ?_⟩
  · unfold getLogValue
    rw [if_pos rfl]
  · intro q hq
    unfold getLogValue
    rw [if_neg hq]

/-- C9 witness: for the trivial evaluator named "unit", the quantity
"pair_unit_energy" yields the energy sum and "bogus" errors out. -/
theorem c9_witness :
    "bogus" ≠ logName unitEval.name ∧
    getLogValue stateNoShift unitEval box10 pFar 2 nlistHalf StorageMode.half
        (logName unitEval.name)
      = Except.ok (calcEnergySum
          (computeForces stateNoShift unitEval box10 pFar 2 nlistHalf StorageMode.half).pe 2) ∧
    getLogValue stateNoShift unitEval box10 pFar 2 nlistHalf StorageMode.half "bogus"
      = Except.error ("bogus" ++ " is not a valid log quantity for PotentialPair") :=
  ⟨by decide,
    (c9_log_value stateNoShift unitEval box10 pFar 2 nlistHalf StorageMode.half).2.1,
    (c9_log_value stateNoShift unitEval box10 pFar 2 nlistHalf StorageMode.half).2.2
      "bogus" (by decide)⟩

/-- C2: the claim that the engine supplies the two particles' charges to
a charge-needing evaluator fails on the code: `computeForces` executes
`eval.setCharge(di, dj)`, handing over the locals that hold the
diameters (or zero), while the fetched charges `qi, qj` go unused.  At
the concrete input below (diameters 1, 2; charges 3, 4) the evaluator
receives `(1, 2)`, not `(3, 4)`, and an evaluator whose energy is its
first supplied charge reads back the diameter.  The diameter half of the
claim does hold: `suppliedDiameters` are the particles' diameters. -/
theorem c2_charge_supplied_is_diameter :
    suppliedDiameters chargeProbeEval pChg0 pChg1 = (pChg0.diameter, pChg1.diameter) ∧
    suppliedCharges chargeProbeEval pChg0 pChg1 = (pChg0.diameter, pChg1.diameter) ∧
    (pChg0.charge, pChg1.charge) = ((3 : Scalar), (4 : Scalar)) ∧
    suppliedCharges chargeProbeEval pChg0 pChg1 ≠ (pChg0.charge, pChg1.charge) ∧
    (pairFE stateNoShift chargeProbeEval pChg0 pChg1 1).2 = pChg0.diameter ∧
    pChg0.diameter ≠ pChg0.charge := by
  refine ⟨?_, ?_, ?_, ?_, ?_, ?_⟩
  · norm_num [suppliedDiameters, chargeProbeEval, pChg0, pChg1]
  · norm_num [suppliedCharges, suppliedDiameters, chargeProbeEval, pChg0, pChg1]
  · norm_num [pChg0, pChg1]
  · norm_num [suppliedCharges, suppliedDiameters, chargeProbeEval, pChg0, pChg1]
  · norm_num [pairFE, stateNoShift, chargeProbeEval, suppliedCharges, suppliedDiameters,
      applyShiftPolicy, energyShiftFlag, xplorSmooth, pChg0, pChg1, typpairIdx]
    simp
  · norm_num [pChg0]

theorem minImage_abs_le (lo hi d : Scalar) (hlo : lo = -hi)
    (h1 : -(hi - lo) ≤ d) (h2 : d ≤ hi - lo) :
    |minImage lo hi (hi - lo) d| ≤ (hi - lo) / 2 := by
  subst hlo
  unfold minImage
  split_ifs with h3 h4 <;> rw [abs_le] <;> constructor <;> linarith

/-- C4: the separation used by the neighbor loop is the raw per-axis
offset `position(i) − position(j)`, each axis independently corrected by
the minimum-image rule — subtract the box length when the offset is `≥`
the upper extent, add it when the offset is `< ` the lower extent — and
for a centered box with both particles inside it the corrected offset
magnitude is at most half the box length on every axis.  (The rule
itself performs no precondition check; it is total on all inputs.) -/
theorem c4_minimum_image (box : BoxDim) (p q : Particle)
    (hx : box.xlo = -box.xhi) (hy : box.ylo = -box.yhi) (hz : box.zlo = -box.zhi)
    (hp : inBox box p) (hq : inBox box q) :
    pairDelta box p q =
      (minImage box.xlo box.xhi (box.xhi - box.xlo) (p.x - q.x),
       minImage box.ylo box.yhi (box.yhi - box.ylo) (p.y - q.y),
       minImage box.zlo box.zhi (box.zhi - box.zlo) (p.z - q.z)) ∧
    (∀ lo hi L d : Scalar, minImage lo hi L d =
      if d ≥ hi then d - L else if d < lo then d + L else d) ∧
    |(pairDelta box p q).1| ≤ (box.xhi - box.xlo) / 2 ∧
    |(pairDelta box p q).2.1| ≤ (box.yhi - box.ylo) / 2 ∧
    |(pairDelta box p q).2.2| ≤ (box.zhi - box.zlo) / 2 := by
  obtain ⟨hp1, hp2, hp3, hp4, hp5, hp6⟩ := hp
  obtain ⟨hq1, hq2, hq3, hq4, hq5, hq6⟩ := hq
  refine ⟨rfl, fun lo hi L d => rfl, ?_, ?_, ?_⟩
  · exact minImage_abs_le box.xlo box.xhi (p.x - q.x) hx (by linarith) (by linarith)
  · exact minImage_abs_le box.ylo box.yhi (p.y - q.y) hy (by linarith) (by linarith)
  · exact minImage_abs_le box.zlo box.zhi (p.z - q.z) hz (by linarith) (by linarith)

/-- C4 witness: the centered box of half-extent 10 and the two concrete
in-box particles 3 apart: all corrected offsets are within 10. -/
theorem c4_witness :
    box10.xlo = -box10.xhi ∧ inBox box10 (pFar 0) ∧ inBox box10 (pFar 1) ∧
    |(pairDelta box10 (pFar 0) (pFar 1)).1| ≤ (box10.xhi - box10.xlo) / 2 :=
  ⟨by norm_num [box10], by norm_num [inBox, box10, pFar], by norm_num [inBox, box10, pFar],
    (c4_minimum_image box10 (pFar 0) (pFar 1) (by norm_num [box10]) (by norm_num [box10])
      (by norm_num [box10]) (by norm_num [inBox, box10, pFar])
      (by norm_num [inBox, box10, pFar])).2.2.1⟩

/-- C6: an interacting visit adds exactly `pair_eng · ½` to particle i's
potential-energy local (and, when `third_law` holds — half mode — the
same to particle j's slot) and exactly `(1/6)·rsq·force_divr`, with no
leading minus sign, to each credited virial; in full mode particle j's
arrays are untouched.  Concretely, for two same-type particles at
separation 1 with `cutoff² = 4`, shift mode none, and an evaluator
returning `(2, −1)`: particle 0 receives force `2·1` along the
separation axis, particle 1 its exact negation, and each energy
accumulator ends at `−0.5`. -/
theorem c6_energy_virial_accumulation {P : Type} (s : PairPotState P) (E : Evaluator P)
    (box : BoxDim) (part : Nat → Particle) (third_law : Bool) (i j : Nat)
    (loc : Locals) (A : ForceArrays)
    (h : pairRsq box (part i) (part j)
      < s.rcutsq (typpairIdx s.ntypes (part i).ptype (part j).ptype)) :
    ((visitNeighbor s E box part third_law i j loc A).1.pei
        = loc.pei
          + (pairFE s E (part i) (part j) (pairRsq box (part i) (part j))).2 * (1 / 2)) ∧
    ((visitNeighbor s E box part third_law i j loc A).1.viriali
        = loc.viriali
          + (1 / 6) * pairRsq box (part i) (part j)
            * (pairFE s E (part i) (part j) (pairRsq box (part i) (part j))).1) ∧
    (third_law = true →
      (visitNeighbor s E box part third_law i j loc A).2.pe j
          = A.pe j
            + (pairFE s E (part i) (part j) (pairRsq box (part i) (part j))).2 * (1 / 2) ∧
      (visitNeighbor s E box part third_law i j loc A).2.virial j
          = A.virial j
            + (1 / 6) * pairRsq box (part i) (part j)
              * (pairFE s E (part i) (part j) (pairRsq box (part i) (part j))).1) ∧
    (third_law = false → (visitNeighbor s E box part third_law i j loc A).2 = A) ∧
    ((computeForces stateNoShift scenarioEval box10 pNear 2 nlistHalf StorageMode.half).fx 0
        = 2 * 1 ∧
     (computeForces stateNoShift scenarioEval box10 pNear 2 nlistHalf StorageMode.half).fy 0
        = 0 ∧
     (computeForces stateNoShift scenarioEval box10 pNear 2 nlistHalf StorageMode.half).fz 0
        = 0 ∧
     (computeForces stateNoShift scenarioEval box10 pNear 2 nlistHalf StorageMode.half).fx 1
        = -(2 * 1) ∧
     (computeForces stateNoShift scenarioEval box10 pNear 2 nlistHalf StorageMode.half).pe 0
        = -(1 / 2) ∧
     (computeForces stateNoShift scenarioEval box10 pNear 2 nlistHalf StorageMode.half).pe 1
        = -(1 / 2)) := by
  refine ⟨?_, ?_, ?_, ?_, ?_⟩
  · simp only [visitNeighbor]
    rw [if_pos h]
  · simp only [visitNeighbor]
    rw [if_pos h]
  · intro ht
    subst ht
    simp only [visitNeighbor]
    rw [if_pos h]
    simp only [if_true]
    exact ⟨upd_self A.pe j _, upd_self A.virial j _⟩
  · intro hf
    subst hf
    simp only [visitNeighbor]
    rw [if_pos h]
    simp
  · norm_num [computeForces, (by decide : List.range 2 = [0, 1]), particleLoop,
      visitNeighbor, pairFE, pairRsq, pairDelta,
      minImage, applyShiftPolicy, energyShiftFlag, suppliedDiameters, suppliedCharges,
      upd, zeroArrays, stateNoShift, scenarioEval, box10, pNear, nlistHalf, typpairIdx,
      StorageMode.isHalf, List.foldl, xplorSmooth]
    simp

/-- C6 witness: the interacting visit of the scenario geometry itself,
with `rsq = 1 < 4`. -/
theorem c6_witness :
    pairRsq box10 (pNear 0) (pNear 1)
      < stateNoShift.rcutsq (typpairIdx stateNoShift.ntypes (pNear 0).ptype (pNear 1).ptype) ∧
    (visitNeighbor stateNoShift scenarioEval box10 pNear true 0 1 ⟨0, 0, 0, 0, 0⟩
        zeroArrays).1.pei
      = 0 + (pairFE stateNoShift scenarioEval (pNear 0) (pNear 1)
          (pairRsq box10 (pNear 0) (pNear 1))).2 * (1 / 2) :=
  ⟨by norm_num [pairRsq, pairDelta, minImage, box10, pNear, stateNoShift, typpairIdx],
    (c6_energy_virial_accumulation stateNoShift scenarioEval box10 pNear true 0 1
      ⟨0, 0, 0, 0, 0⟩ zeroArrays
      (by norm_num [pairRsq, pairDelta, minImage, box10, pNear, stateNoShift, typpairIdx])).1⟩

theorem minImage_neg_cases (hi d : Scalar) (hpos : 0 < hi) :
    minImage (-hi) hi (hi - -hi) (-d) = -minImage (-hi) hi (hi - -hi) d ∨
    (minImage (-hi) hi (hi - -hi) d = -hi ∧ minImage (-hi) hi (hi - -hi) (-d) = -hi) := by
  unfold minImage
  rcases lt_trichotomy d hi with h | h | h
  · rcases lt_trichotomy d (-hi) with h2 | h2 | h2
    · left
      rw [if_pos (by linarith : -d ≥ hi), if_neg (by linarith : ¬ d ≥ hi), if_pos h2]
      ring
    · right
      subst h2
      constructor
      · rw [if_neg (by linarith : ¬ -hi ≥ hi), if_neg (lt_irrefl (-hi))]
      · rw [if_pos (by linarith : -(-hi) ≥ hi)]
        ring
    · left
      rw [if_neg (by linarith : ¬ -d ≥ hi), if_neg (by linarith : ¬ -d < -hi),
        if_neg (by linarith : ¬ d ≥ hi), if_neg (by linarith : ¬ d < -hi)]
  · right
    subst h
    constructor
    · rw [if_pos (le_refl d : d ≥ d)]
      ring
    · rw [if_neg (by linarith : ¬ -d ≥ d), if_neg (by linarith : ¬ -d < -d)]
  · left
    rw [if_neg (by linarith : ¬ -d ≥ hi), if_pos (by linarith : -d < -hi),
      if_pos (by linarith : d ≥ hi)]
    ring

theorem minImage_neg_sq (hi d : Scalar) (hpos : 0 < hi) :
    minImage (-hi) hi (hi - -hi) (-d) * minImage (-hi) hi (hi - -hi) (-d)
      = minImage (-hi) hi (hi - -hi) d * minImage (-hi) hi (hi - -hi) d := by
  rcases minImage_neg_cases hi d hpos with hc | ⟨h1, h2⟩
  · rw [hc]
    ring
  · rw [h1, h2]

theorem minImage_neg_of_lt (hi d : Scalar) (hpos : 0 < hi)
    (h : minImage (-hi) hi (hi - -hi) d * minImage (-hi) hi (hi - -hi) d < hi * hi) :
    minImage (-hi) hi (hi - -hi) (-d) = -minImage (-hi) hi (hi - -hi) d := by
  rcases minImage_neg_cases hi d hpos with hc | ⟨h1, h2⟩
  · exact hc
  · rw [h1, (by ring : -hi * -hi = hi * hi)] at h
    exact absurd h (lt_irrefl _)

theorem pairRsq_symm (box : BoxDim) (p q : Particle)
    (hx : box.xlo = -box.xhi) (hy : box.ylo = -box.yhi) (hz : box.zlo = -box.zhi)
    (hxp : 0 < box.xhi) (hyp2 : 0 < box.yhi) (hzp : 0 < box.zhi) :
    pairRsq box q p = pairRsq box p q := by
  simp only [pairRsq, pairDelta]
  rw [hx, hy, hz]
  rw [(by ring : q.x - p.x = -(p.x - q.x)), (by ring : q.y - p.y = -(p.y - q.y)),
    (by ring : q.z - p.z = -(p.z - q.z))]
  rw [minImage_neg_sq box.xhi (p.x - q.x) hxp, minImage_neg_sq box.yhi (p.y - q.y) hyp2,
    minImage_neg_sq box.zhi (p.z - q.z) hzp]

theorem pairDelta_sq_le (box : BoxDim) (p q : Particle) :
    (pairDelta box p q).1 * (pairDelta box p q).1 ≤ pairRsq box p q ∧
    (pairDelta box p q).2.1 * (pairDelta box p q).2.1 ≤ pairRsq box p q ∧
    (pairDelta box p q).2.2 * (pairDelta box p q).2.2 ≤ pairRsq box p q := by
  simp only [pairRsq]
  refine ⟨?_, ?_, ?_⟩ <;>
    nlinarith [mul_self_nonneg (pairDelta box p q).1, mul_self_nonneg (pairDelta box p q).2.1,
      mul_self_nonneg (pairDelta box p q).2.2]

theorem pairDelta_neg (box : BoxDim) (p q : Particle)
    (hx : box.xlo = -box.xhi) (hy : box.ylo = -box.yhi) (hz : box.zlo = -box.zhi)
    (hxp : 0 < box.xhi) (hyp2 : 0 < box.yhi) (hzp : 0 < box.zhi)
    (hbx : (pairDelta box p q).1 * (pairDelta box p q).1 < box.xhi * box.xhi)
    (hby : (pairDelta box p q).2.1 * (pairDelta box p q).2.1 < box.yhi * box.yhi)
    (hbz : (pairDelta box p q).2.2 * (pairDelta box p q).2.2 < box.zhi * box.zhi) :
    pairDelta box q p
      = (-(pairDelta box p q).1, -(pairDelta box p q).2.1, -(pairDelta box p q).2.2) := by
  simp only [pairDelta] at *
  rw [hx, hy, hz] at *
  rw [(by ring : q.x - p.x = -(p.x - q.x)), (by ring : q.y - p.y = -(p.y - q.y)),
    (by ring : q.z - p.z = -(p.z - q.z))]
  rw [minImage_neg_of_lt box.xhi (p.x - q.x) hxp hbx,
    minImage_neg_of_lt box.yhi (p.y - q.y) hyp2 hby,
    minImage_neg_of_lt box.zhi (p.z - q.z) hzp hbz]

theorem pairFE_swap {P : Type} (s : PairPotState P) (E : Evaluator P) (p q : Particle)
    (rsq : Scalar)
    (hsym : ∀ r rc par dp qp sh, E.eval r rc par dp qp sh
      = E.eval r rc par (dp.2, dp.1) (qp.2, qp.1) sh) :
    pairFE s E q p rsq = pairFE s E p q rsq := by
  simp only [pairFE, suppliedDiameters, suppliedCharges]
  rw [typpairIdx_comm s.ntypes q.ptype p.ptype]
  cases hnd : E.needsDiameter <;> cases hnc : E.needsCharge <;>
    simp only [hnd, hnc, Bool.false_eq_true, if_true, if_false] <;>
    rw [hsym rsq]

/-- C3: while visiting an interacting pair the loop adds
`force_over_r · (dx, dy, dz)` to particle i's locals, with the exact
negation written to particle j's force slots if and only if the storage
mode is half (`third_law` true): with `third_law` false (full mode) no
write to j's arrays ever occurs during i's visit, and with `third_law`
true j's slot change is exactly minus i's locals increment.  Moreover,
for a two-particle system in a centered box at least twice the cutoff in
each dimension and an evaluator whose law is symmetric under swapping
the per-particle inputs, the total force on particle 0 is the exact
negation of the total force on particle 1 — both under a half-mode list
presenting the pair once and under a full-mode list presenting both
ordered pairs. -/
theorem c3_newton_third_law {P : Type} (s : PairPotState P) (E : Evaluator P)
    (box : BoxDim) (p0 p1 : Particle)
    (hsym : ∀ r rc par dp qp sh, E.eval r rc par dp qp sh
      = E.eval r rc par (dp.2, dp.1) (qp.2, qp.1) sh)
    (hx : box.xlo = -box.xhi) (hy : box.ylo = -box.yhi) (hz : box.zlo = -box.zhi)
    (hxp : 0 < box.xhi) (hyp2 : 0 < box.yhi) (hzp : 0 < box.zhi)
    (hcx : s.rcutsq (typpairIdx s.ntypes p0.ptype p1.ptype) ≤ box.xhi * box.xhi)
    (hcy : s.rcutsq (typpairIdx s.ntypes p0.ptype p1.ptype) ≤ box.yhi * box.yhi)
    (hcz : s.rcutsq (typpairIdx s.ntypes p0.ptype p1.ptype) ≤ box.zhi * box.zhi) :
    (∀ (part : Nat → Particle) (loc : Locals) (A : ForceArrays) (i j : Nat),
      (visitNeighbor s E box part false i j loc A).2 = A) ∧
    (∀ (part : Nat → Particle) (loc : Locals) (A : ForceArrays) (i j : Nat),
      (visitNeighbor s E box part true i j loc A).2.fx j
          = A.fx j - ((visitNeighbor s E box part true i j loc A).1.fxi - loc.fxi) ∧
      (visitNeighbor s E box part true i j loc A).2.fy j
          = A.fy j - ((visitNeighbor s E box part true i j loc A).1.fyi - loc.fyi) ∧
      (visitNeighbor s E box part true i j loc A).2.fz j
          = A.fz j - ((visitNeighbor s E box part true i j loc A).1.fzi - loc.fzi)) ∧
    ((computeForces s E box (fun n => if n = 0 then p0 else p1) 2 nlistHalf
          StorageMode.half).fx 0
        = -(computeForces s E box (fun n => if n = 0 then p0 else p1) 2 nlistHalf
          StorageMode.half).fx 1 ∧
     (computeForces s E box (fun n => if n = 0 then p0 else p1) 2 nlistHalf
          StorageMode.half).fy 0
        = -(computeForces s E box (fun n => if n = 0 then p0 else p1) 2 nlistHalf
          StorageMode.half).fy 1 ∧
     (computeForces s E box (fun n => if n = 0 then p0 else p1) 2 nlistHalf
          StorageMode.half).fz 0
        = -(computeForces s E box (fun n => if n = 0 then p0 else p1) 2 nlistHalf
          StorageMode.half).fz 1) ∧
    ((computeForces s E box (fun n => if n = 0 then p0 else p1) 2 nlistFull
          StorageMode.full).fx 0
        = -(computeForces s E box (fun n => if n = 0 then p0 else p1) 2 nlistFull
          StorageMode.full).fx 1 ∧
     (computeForces s E box (fun n => if n = 0 then p0 else p1) 2 nlistFull
          StorageMode.full).fy 0
        = -(computeForces s E box (fun n => if n = 0 then p0 else p1) 2 nlistFull
          StorageMode.full).fy 1 ∧
     (computeForces s E box (fun n => if n = 0 then p0 else p1) 2 nlistFull
          StorageMode.full).fz 0
        = -(computeForces s E box (fun n => if n = 0 then p0 else p1) 2 nlistFull
          StorageMode.full).fz 1) := by
  have hrange : List.range 2 = [0, 1] := by decide
  refine ⟨?_, ?_, ?_, ?_⟩
  · intro part loc A i j
    simp only [visitNeighbor]
    split
    · simp
    · rfl
  · intro part loc A i j
    simp only [visitNeighbor]
    split
    · refine ⟨?_, ?_, ?_⟩ <;> simp only [if_true, upd_self] <;> ring
    · refine ⟨?_, ?_, ?_⟩ <;> ring
  · simp only [computeForces, hrange, List.foldl, particleLoop, StorageMode.isHalf,
      nlistHalf, visitNeighbor]
    norm_num
    by_cases hc : pairRsq box p0 p1 < s.rcutsq (typpairIdx s.ntypes p0.ptype p1.ptype)
    · rw [if_pos hc]
      simp [upd, zeroArrays]
    · rw [if_neg hc]
      simp [upd, zeroArrays]
  · have hr : pairRsq box p1 p0 = pairRsq box p0 p1 :=
      pairRsq_symm box p0 p1 hx hy hz hxp hyp2 hzp
    have hi2 : typpairIdx s.ntypes p1.ptype p0.ptype = typpairIdx s.ntypes p0.ptype p1.ptype :=
      typpairIdx_comm s.ntypes p1.ptype p0.ptype
    simp only [computeForces, hrange, List.foldl, particleLoop, StorageMode.isHalf,
      nlistFull, visitNeighbor]
    norm_num
    rw [hr, hi2]
    by_cases hc : pairRsq box p0 p1 < s.rcutsq (typpairIdx s.ntypes p0.ptype p1.ptype)
    · have hfe : pairFE s E p1 p0 (pairRsq box p0 p1) = pairFE s E p0 p1 (pairRsq box p0 p1) :=
        pairFE_swap s E p0 p1 (pairRsq box p0 p1) hsym
      have hsq := pairDelta_sq_le box p0 p1
      have hbx : (pairDelta box p0 p1).1 * (pairDelta box p0 p1).1 < box.xhi * box.xhi :=
        lt_of_le_of_lt hsq.1 (lt_of_lt_of_le hc hcx)
      have hby : (pairDelta box p0 p1).2.1 * (pairDelta box p0 p1).2.1 < box.yhi * box.yhi :=
        lt_of_le_of_lt hsq.2.1 (lt_of_lt_of_le hc hcy)
      have hbz : (pairDelta box p0 p1).2.2 * (pairDelta box p0 p1).2.2 < box.zhi * box.zhi :=
        lt_of_le_of_lt hsq.2.2 (lt_of_lt_of_le hc hcz)
      have hd : pairDelta box p1 p0
          = (-(pairDelta box p0 p1).1, -(pairDelta box p0 p1).2.1,
             -(pairDelta box p0 p1).2.2) :=
        pairDelta_neg box p0 p1 hx hy hz hxp hyp2 hzp hbx hby hbz
      rw [if_pos hc, if_pos hc]
      rw [hfe, hd]
      simp [upd, zeroArrays]
    · rw [if_neg hc, if_neg hc]
      simp [upd, zeroArrays]

/-- C3 witness: the trivial symmetric evaluator in the centered box of
half-extent 10 with cutoff² = 4: the full-mode two-particle run yields
opposite x forces. -/
theorem c3_witness :
    box10.xlo = -box10.xhi ∧ (0 : Scalar) < box10.xhi ∧
    stateNoShift.rcutsq (typpairIdx stateNoShift.ntypes (pNear 0).ptype (pNear 1).ptype)
      ≤ box10.xhi * box10.xhi ∧
    ((computeForces stateNoShift unitEval box10
        (fun n => if n = 0 then pNear 0 else pNear 1) 2 nlistFull StorageMode.full).fx 0
      = -(computeForces stateNoShift unitEval box10
        (fun n => if n = 0 then pNear 0 else pNear 1) 2 nlistFull StorageMode.full).fx 1) :=
  ⟨by norm_num [box10], by norm_num [box10],
    by norm_num [stateNoShift, box10, typpairIdx],
    (c3_newton_third_law stateNoShift unitEval box10 (pNear 0) (pNear 1)
      (fun _ _ _ _ _ _ => rfl)
      (by norm_num [box10]) (by norm_num [box10]) (by norm_num [box10])
      (by norm_num [box10]) (by norm_num [box10]) (by norm_num [box10])
      (by norm_num [stateNoShift, box10, typpairIdx])
      (by norm_num [stateNoShift, box10, typpairIdx])
      (by norm_num [stateNoShift, box10, typpairIdx])).2.2.2.1⟩

end PotentialPair
